import Mathlib

/-!
Shallow embedding of the py-network-salience repository
(src/salience.py, weighted variant; src/salience_unw.py, unweighted variant).

Modelling conventions:
* Node identifiers are `Nat` (the sources allow arbitrary hashable labels;
  `Nat` stands in for them, with `nodes` listed in `G.nodes()` enumeration
  order).
* Edge weights and matrix entries are `ℚ` (the sources use Python floats;
  every value the claims touch is exactly representable, and `1./w` raises
  `ZeroDivisionError` exactly when `w == 0`, which the model reports as
  `PyErr.invalidWeight`).
* `np.zeros((N,N))` matrices are total functions `Nat → Nat → ℚ`; only the
  entries below `N` are meaningful, exactly as only those indices exist in
  the numpy array.
* Python edge-attribute dictionaries live in an explicit heap (`Store`,
  a list of dictionaries addressed by cell id); every graph edge carries
  the cell id of its attribute dictionary.  `networkx` relabelling copies
  each attribute dictionary (`d.copy()` in `relabel_nodes`), which the
  model renders as allocating fresh cells at the end of the store.  This
  makes the no-mutation claim about the caller's graph a real statement.
* `networkx.shortest_path(G, source)` (breadth-first search, unweighted
  variant) is embedded concretely, following `single_source_shortest_path`:
  level-by-level traversal that records one path per newly discovered node
  as `paths[v] + [w]`.  The fuel `N + 1` dominates the number of BFS levels,
  so the loop always terminates by seeing an empty level, as in the source.
* `networkx.shortest_path(G, source, weight)` (Dijkstra, weighted variant)
  is an external collaborator that the spec leaves as a black box with an
  unspecified tie-break; it is modelled as an oracle parameter producing
  the dictionary of paths, constrained only where a claim needs the
  collaborator contract (paths walk along edges of the graph).
* The `@not_implemented_for('directed')` / `('multigraph')` decorators are
  the `directed` / `multigraph` flags on a graph plus the corresponding
  check at the top of each `_SPT`.
-/

abbrev AttrDict : Type := List (String × ℚ)

abbrev Store : Type := List AttrDict

/-- Error taxonomy of the spec: `UnsupportedGraphShape` is networkx's
`NetworkXNotImplemented` from the decorators, `invalidWeight` is Python's
`ZeroDivisionError` from `1./w`, `missingWeightAttribute` is the `KeyError`
from `Gn[i][j][weight]`, `nodeNotFound` is networkx's `NodeNotFound` for a
missing source node. -/
inductive PyErr : Type where
  | unsupportedGraphShape : PyErr
  | invalidWeight : PyErr
  | missingWeightAttribute : PyErr
  | nodeNotFound : PyErr
  deriving DecidableEq

/-- A networkx graph: node labels in `G.nodes()` order, edges in `G.edges()`
order carrying the heap cell of their attribute dictionary, and the two
shape flags the decorators test. -/
structure PyGraph : Type where
  nodes : List Nat
  edges : List ((Nat × Nat) × Nat)
  directed : Bool
  multigraph : Bool
  deriving DecidableEq

abbrev SMat : Type := Nat → Nat → ℚ

abbrev Paths : Type := List (Nat × List Nat)

/-- Dictionary lookup (first binding wins, as in a Python dict after our
update-by-cons). -/
def lookupQ (k : String) : AttrDict → Option ℚ
  | [] => none
  | kv :: rest => if kv.1 = k then some kv.2 else lookupQ k rest

/-- Lookup in the `paths` dictionary of the BFS. -/
def lookupP (k : Nat) : Paths → Option (List Nat)
  | [] => none
  | kp :: rest => if kp.1 = k then some kp.2 else lookupP k rest

/-- Position of a node label in the `G.nodes()` enumeration; this is the
identifier-to-dense-integer mapping of `nx.convert_node_labels_to_integers`
(`ordering="default"` zips `G.nodes()` with `range(N)`). -/
def nodeIdx : List Nat → Nat → Nat
  | [], _ => 0
  | a :: l, x => if a = x then 0 else nodeIdx l x + 1

/-- Relabelled copy of the edge list: endpoints are mapped to dense indices
and each edge receives a fresh attribute cell `base, base+1, ...`. -/
def relabelEdges (ns : List Nat) (base : Nat) :
    List ((Nat × Nat) × Nat) → List ((Nat × Nat) × Nat)
  | [] => []
  | e :: es => ((nodeIdx ns e.1.1, nodeIdx ns e.1.2), base) ::
      relabelEdges ns (base + 1) es

/-- The attribute dictionaries copied for the fresh cells (`d.copy()` for
each edge in `nx.relabel_nodes`). -/
def copyDicts : Store → List ((Nat × Nat) × Nat) → List AttrDict
  | _, [] => []
  | st, e :: es => st.getD e.2 [] :: copyDicts st es

/-- `nx.convert_node_labels_to_integers(G)`: a fresh graph whose nodes are
`0..N-1` in `G.nodes()` order, with copied attribute dictionaries placed in
fresh heap cells. -/
def convert_node_labels_to_integers (st : Store) (G : PyGraph) :
    Store × PyGraph :=
  (st ++ copyDicts st G.edges,
   { nodes := List.range G.nodes.length
     edges := relabelEdges G.nodes st.length G.edges
     directed := G.directed
     multigraph := G.multigraph })

/-- Neighbour list of `v` (undirected adjacency read off the edge list;
the list order stands in for networkx's adjacency-dict insertion order,
which the spec leaves unspecified). -/
def nbrAux (v : Nat) : List ((Nat × Nat) × Nat) → List Nat
  | [] => []
  | e :: es =>
    if e.1.1 = v then e.1.2 :: nbrAux v es
    else if e.1.2 = v then e.1.1 :: nbrAux v es
    else nbrAux v es

def neighbors (G : PyGraph) (v : Nat) : List Nat := nbrAux v G.edges

/-- Inner loop of networkx `_single_shortest_path`: try every neighbour `w`
of the current node; a node not yet in `paths` gets the path
`paths[v] + [w]` and joins the next level. -/
def addNeighbors (pv : List Nat) : List Nat → Paths → List Nat → Paths × List Nat
  | [], paths, nxt => (paths, nxt)
  | w :: ws, paths, nxt =>
    match lookupP w paths with
    | some _ => addNeighbors pv ws paths nxt
    | none => addNeighbors pv ws (paths ++ [(w, pv ++ [w])]) (nxt ++ [w])

/-- One BFS level: process every node of `thislevel`. -/
def bfsLevel (G : PyGraph) : List Nat → Paths → List Nat → Paths × List Nat
  | [], paths, nxt => (paths, nxt)
  | v :: vs, paths, nxt =>
    let pr := addNeighbors ((lookupP v paths).getD []) (neighbors G v) paths nxt
    bfsLevel G vs pr.1 pr.2

/-- The `while nextlevel:` loop of `_single_shortest_path`, with fuel that
dominates the number of levels. -/
def bfsLoop (G : PyGraph) : Nat → List Nat → Paths → Paths
  | 0, _, paths => paths
  | _ + 1, [], paths => paths
  | fuel + 1, lvl, paths =>
    let pr := bfsLevel G lvl paths []
    bfsLoop G fuel pr.2 pr.1

/-- networkx `single_source_shortest_path(G, source)`: reject a missing
source, then run the level loop from `{source: [source]}`. -/
def single_source_shortest_path (G : PyGraph) (source : Nat) :
    Except PyErr Paths :=
  if source ∈ G.nodes then
    Except.ok (bfsLoop G (G.nodes.length + 1) [source] [(source, [source])])
  else Except.error PyErr.nodeNotFound

def zeroM : SMat := fun _ _ => 0

/-- `T[i][j] = x` on a numpy matrix. -/
def setEntry (T : SMat) (i j : Nat) (x : ℚ) : SMat :=
  fun a b => if a = i ∧ b = j then x else T a b

/-- `for i in range(len(path)-1): T[path[i]][path[i+1]] = 1` —
note only the `(path[i], path[i+1])` entry is written, faithful to both
sources. -/
def markPath : SMat → List Nat → SMat
  | T, a :: b :: rest => markPath (setEntry T a b 1) (b :: rest)
  | T, _ => T

/-- `for k, path in paths.items(): ...` filling loop of `_SPT`. -/
def fillT : SMat → Paths → SMat
  | T, [] => T
  | T, kp :: rest => fillT (markPath T kp.2) rest

/-- Elementwise `S + T` on numpy matrices. -/
def addMat (A B : SMat) : SMat := fun i j => A i j + B i j

/-- Proximity loop of the weighted `_SPT`
(`for i,j in Gn.edges(): w = Gn[i][j][weight]; Gn[i][j]['proximity'] = 1./w`).
A missing key raises `KeyError`; `w = 0` raises `ZeroDivisionError`.
The write goes to the edge's own attribute cell; the returned store is the
heap at the moment the loop finishes or dies. -/
def addProximity (key : String) : Store → List ((Nat × Nat) × Nat) →
    Store × Option PyErr
  | st, [] => (st, none)
  | st, e :: es =>
    match lookupQ key (st.getD e.2 []) with
    | none => (st, some PyErr.missingWeightAttribute)
    | some w =>
      if w = 0 then (st, some PyErr.invalidWeight)
      else addProximity key
        (st.set e.2 (("proximity", 1 / w) :: st.getD e.2 [])) es

/-- The Dijkstra collaborator (`nx.shortest_path(Gn, source, weight)`),
kept abstract: it may read the store and the relabelled graph and returns
the dictionary of shortest paths. -/
abbrev PathOracle : Type := Store → PyGraph → Nat → Paths

namespace SalienceUnw

/-- `_SPT` of src/salience_unw.py: decorator checks, relabel, BFS, fill. -/
def _SPT (st : Store) (G : PyGraph) (r : Nat) : Store × Except PyErr SMat :=
  if G.directed || G.multigraph then
    (st, Except.error PyErr.unsupportedGraphShape)
  else
    let pr := convert_node_labels_to_integers st G
    match single_source_shortest_path pr.2 r with
    | Except.error e => (pr.1, Except.error e)
    | Except.ok paths => (pr.1, Except.ok (fillT zeroM paths))

end SalienceUnw

/-- The accumulation loop `for n in Gn.nodes(): S = S + _SPT(G, n)`, shared
by both variants through the `spt` parameter; a raised exception aborts
the loop. -/
def salienceLoop (spt : Store → Nat → Store × Except PyErr SMat) :
    List Nat → Store → SMat → Store × Except PyErr SMat
  | [], st, S => (st, Except.ok S)
  | n :: ns, st, S =>
    match spt st n with
    | (st2, Except.error e) => (st2, Except.error e)
    | (st2, Except.ok T) => salienceLoop spt ns st2 (addMat S T)

namespace SalienceUnw

/-- `salience` of src/salience_unw.py: `N = G.order()`, relabel, accumulate
`_SPT(G, n)` over `n` in the relabelled node range, then `S = 1.*S/N`. -/
def salience (st : Store) (G : PyGraph) : Store × Except PyErr SMat :=
  let N := G.nodes.length
  let pr := convert_node_labels_to_integers st G
  match salienceLoop (fun s n => _SPT s G n) pr.2.nodes pr.1 zeroM with
  | (st2, Except.error e) => (st2, Except.error e)
  | (st2, Except.ok S) => (st2, Except.ok (fun i j => S i j / (N : ℚ)))

end SalienceUnw

namespace Salience

/-- `_SPT` of src/salience.py: decorator checks, relabel, proximity loop,
Dijkstra collaborator (source membership is networkx's `NodeNotFound`
check), fill. -/
def _SPT (oracle : PathOracle) (st : Store) (G : PyGraph) (r : Nat)
    (key : String) : Store × Except PyErr SMat :=
  if G.directed || G.multigraph then
    (st, Except.error PyErr.unsupportedGraphShape)
  else
    let pr := convert_node_labels_to_integers st G
    match addProximity key pr.1 pr.2.edges with
    | (st2, some e) => (st2, Except.error e)
    | (st2, none) =>
      if r ∈ pr.2.nodes then
        (st2, Except.ok (fillT zeroM (oracle st2 pr.2 r)))
      else (st2, Except.error PyErr.nodeNotFound)

/-- `salience` of src/salience.py. -/
def salience (oracle : PathOracle) (st : Store) (G : PyGraph)
    (key : String) : Store × Except PyErr SMat :=
  let N := G.nodes.length
  let pr := convert_node_labels_to_integers st G
  match salienceLoop (fun s n => _SPT oracle s G n key) pr.2.nodes pr.1 zeroM with
  | (st2, Except.error e) => (st2, Except.error e)
  | (st2, Except.ok S) => (st2, Except.ok (fun i j => S i j / (N : ℚ)))

end Salience

/-- Entry `(i,j)` of a returned matrix, `none` when the call raised. -/
def entryOf (res : Except PyErr SMat) (i j : Nat) : Option ℚ :=
  match res with
  | Except.ok S => some (S i j)
  | Except.error _ => none

/-- The path graph 0 - 1 - 2 of the spec's worked example. -/
def path3 : PyGraph :=
  { nodes := [0, 1, 2]
    edges := [((0, 1), 0), ((1, 2), 1)]
    directed := false
    multigraph := false }

/-- Heap for `path3`: both edges carry weight 1. -/
def st3 : Store := [[("weight", 1)], [("weight", 1)]]

/-- Consecutive pairs `(path[i], path[i+1])` of a node sequence. -/
def pairsOf : List Nat → List (Nat × Nat)
  | a :: b :: rest => (a, b) :: pairsOf (b :: rest)
  | _ => []

/-- `(i,j)` is an (undirected) edge of `G`. -/
def IsEdge (G : PyGraph) (i j : Nat) : Prop :=
  ∃ e ∈ G.edges, (e.1.1 = i ∧ e.1.2 = j) ∨ (e.1.1 = j ∧ e.1.2 = i)

/-- `(i,j)` is an edge of `G` after relabelling to dense indices. -/
def IsEdgeIdx (G : PyGraph) (i j : Nat) : Prop :=
  ∃ e ∈ G.edges,
    (nodeIdx G.nodes e.1.1 = i ∧ nodeIdx G.nodes e.1.2 = j) ∨
    (nodeIdx G.nodes e.1.1 = j ∧ nodeIdx G.nodes e.1.2 = i)

/-- Every consecutive pair of the sequence is an edge of `G` — the part of
the shortest-path collaborator contract (spec section 6) that the claims
rely on. -/
def PathUsesEdges (G : PyGraph) (p : List Nat) : Prop :=
  ∀ q ∈ pairsOf p, IsEdge G q.1 q.2

/-- All paths of a paths dictionary walk along edges of `G`. -/
def PathsUse (G : PyGraph) (ps : Paths) : Prop :=
  ∀ kp ∈ ps, PathUsesEdges G kp.2

/-- A conforming Dijkstra collaborator: every reported path walks along
edges of the graph it was asked about. -/
def ValidOracle (oracle : PathOracle) : Prop :=
  ∀ st G r, PathsUse G (oracle st G r)

theorem markPath_entry_of_ne (i j : Nat) :
    ∀ (p : List Nat) (T : SMat), (i, j) ∉ pairsOf p → markPath T p i j = T i j
  | [], _, _ => rfl
  | [_], _, _ => rfl
  | a :: b :: rest, T, h => by
    have h1 : (i, j) ≠ (a, b) := fun he => h (by rw [pairsOf, he]; exact List.mem_cons_self _ _)
    have h2 : (i, j) ∉ pairsOf (b :: rest) := fun hm => h (by rw [pairsOf]; exact List.mem_cons_of_mem _ hm)
    rw [markPath, markPath_entry_of_ne i j (b :: rest) (setEntry T a b 1) h2]
    simp only [setEntry]
    rw [if_neg]
    intro hc
    exact h1 (by rw [hc.1, hc.2])

theorem fillT_entry_of_ne (G : PyGraph) (i j : Nat) (hij : ¬ IsEdge G i j) :
    ∀ (ps : Paths) (T : SMat), PathsUse G ps → fillT T ps i j = T i j
  | [], _, _ => rfl
  | kp :: rest, T, hps => by
    have hkp : PathUsesEdges G kp.2 := hps kp (List.mem_cons_self _ _)
    have hrest : PathsUse G rest := fun x hx => hps x (List.mem_cons_of_mem _ hx)
    have hnp : (i, j) ∉ pairsOf kp.2 := fun hm => hij (hkp (i, j) hm)
    rw [fillT, fillT_entry_of_ne G i j hij rest _ hrest,
      markPath_entry_of_ne i j kp.2 T hnp]

theorem markPath_entry01 (i j : Nat) :
    ∀ (p : List Nat) (T : SMat), T i j = 0 ∨ T i j = 1 →
      markPath T p i j = 0 ∨ markPath T p i j = 1
  | [], _, h => h
  | [_], _, h => h
  | a :: b :: rest, T, h => by
    rw [markPath]
    apply markPath_entry01 i j (b :: rest)
    simp only [setEntry]
    by_cases hc : i = a ∧ j = b
    · rw [if_pos hc]; right; rfl
    · rw [if_neg hc]; exact h

theorem fillT_entry01 (i j : Nat) :
    ∀ (ps : Paths) (T : SMat), T i j = 0 ∨ T i j = 1 →
      fillT T ps i j = 0 ∨ fillT T ps i j = 1
  | [], _, h => h
  | kp :: rest, T, h => by
    rw [fillT]
    exact fillT_entry01 i j rest _ (markPath_entry01 i j kp.2 T h)

/-- BFS bookkeeping invariant: each dictionary entry `k ↦ p` is a walk along
edges ending at `k`. -/
def PathOk (G : PyGraph) (k : Nat) (p : List Nat) : Prop :=
  PathUsesEdges G p ∧ p.getLast? = some k

def PathsOk (G : PyGraph) (ps : Paths) : Prop :=
  ∀ kp ∈ ps, PathOk G kp.1 kp.2

theorem pairsOf_concat : ∀ (l : List Nat) (v w : Nat), l.getLast? = some v →
    pairsOf (l ++ [w]) = pairsOf l ++ [(v, w)]
  | [], _, _, h => by simp at h
  | [a], v, w, h => by
    simp at h
    subst h
    rfl
  | a :: b :: rest, v, w, h => by
    rw [List.getLast?_cons_cons] at h
    have hr := pairsOf_concat (b :: rest) v w h
    show (a, b) :: pairsOf (b :: (rest ++ [w])) =
      (a, b) :: (pairsOf (b :: rest) ++ [(v, w)])
    rw [show b :: (rest ++ [w]) = (b :: rest) ++ [w] from rfl, hr]

theorem lookupP_mem : ∀ (ps : Paths) (k : Nat) (p : List Nat),
    lookupP k ps = some p → (k, p) ∈ ps
  | [], _, _, h => by simp [lookupP] at h
  | kp :: rest, k, p, h => by
    rw [lookupP] at h
    by_cases hk : kp.1 = k
    · rw [if_pos hk] at h
      injection h with h
      have : kp = (k, p) := by
        rw [show kp = (kp.1, kp.2) from rfl, hk, h]
      rw [show (k, p) = kp from this.symm]
      exact List.mem_cons_self _ _
    · rw [if_neg hk] at h
      exact List.mem_cons_of_mem _ (lookupP_mem rest k p h)

theorem mem_nbrAux : ∀ (es : List ((Nat × Nat) × Nat)) (v w : Nat),
    w ∈ nbrAux v es →
    ∃ e ∈ es, (e.1.1 = v ∧ e.1.2 = w) ∨ (e.1.1 = w ∧ e.1.2 = v)
  | [], _, _, h => by simp [nbrAux] at h
  | e :: es, v, w, h => by
    rw [nbrAux] at h
    by_cases h1 : e.1.1 = v
    · rw [if_pos h1] at h
      rcases List.mem_cons.1 h with h | h
      · exact ⟨e, List.mem_cons_self _ _, Or.inl ⟨h1, h.symm⟩⟩
      · rcases mem_nbrAux es v w h with ⟨e0, he0, hc⟩
        exact ⟨e0, List.mem_cons_of_mem _ he0, hc⟩
    · rw [if_neg h1] at h
      by_cases h2 : e.1.2 = v
      · rw [if_pos h2] at h
        rcases List.mem_cons.1 h with h | h
        · exact ⟨e, List.mem_cons_self _ _, Or.inr ⟨h.symm, h2⟩⟩
        · rcases mem_nbrAux es v w h with ⟨e0, he0, hc⟩
          exact ⟨e0, List.mem_cons_of_mem _ he0, hc⟩
      · rw [if_neg h2] at h
        rcases mem_nbrAux es v w h with ⟨e0, he0, hc⟩
        exact ⟨e0, List.mem_cons_of_mem _ he0, hc⟩

theorem mem_neighbors {G : PyGraph} {v w : Nat} (h : w ∈ neighbors G v) :
    IsEdge G v w :=
  mem_nbrAux G.edges v w h

theorem addNeighbors_ok (G : PyGraph) (v : Nat) (pv : List Nat)
    (hpv : PathUsesEdges G pv) (hlast : pv = [] ∨ pv.getLast? = some v) :
    ∀ (ws : List Nat) (paths : Paths) (nxt : List Nat),
      (∀ w ∈ ws, IsEdge G v w) → PathsOk G paths →
      PathsOk G (addNeighbors pv ws paths nxt).1
  | [], _, _, _, hps => hps
  | w :: ws, paths, nxt, hws, hps => by
    have hws' : ∀ x ∈ ws, IsEdge G v x := fun x hx => hws x (List.mem_cons_of_mem _ hx)
    rw [addNeighbors]
    cases hl : lookupP w paths with
    | some p => exact addNeighbors_ok G v pv hpv hlast ws paths nxt hws' hps
    | none =>
      apply addNeighbors_ok G v pv hpv hlast ws _ _ hws'
      intro kp hkp
      rcases List.mem_append.1 hkp with h | h
      · exact hps kp h
      · have hkp2 : kp = (w, pv ++ [w]) := by simpa using h
        subst hkp2
        constructor
        · rcases hlast with he | hv
          · subst he
            intro q hq
            simp [pairsOf] at hq
          · intro q hq
            rw [pairsOf_concat pv v w hv] at hq
            rcases List.mem_append.1 hq with h1 | h1
            · exact hpv q h1
            · have : q = (v, w) := by simpa using h1
              subst this
              exact hws w (List.mem_cons_self _ _)
        · simp

theorem bfsLevel_ok (G : PyGraph) :
    ∀ (vs : List Nat) (paths : Paths) (nxt : List Nat),
      PathsOk G paths → PathsOk G (bfsLevel G vs paths nxt).1
  | [], _, _, hps => hps
  | v :: vs, paths, nxt, hps => by
    show PathsOk G (bfsLevel G vs
      (addNeighbors ((lookupP v paths).getD []) (neighbors G v) paths nxt).1
      (addNeighbors ((lookupP v paths).getD []) (neighbors G v) paths nxt).2).1
    apply bfsLevel_ok G vs
    cases hl : lookupP v paths with
    | none =>
      show PathsOk G (addNeighbors [] (neighbors G v) paths nxt).1
      exact addNeighbors_ok G v [] (fun q hq => by simp [pairsOf] at hq)
        (Or.inl rfl) _ _ _ (fun w hw => mem_neighbors hw) hps
    | some p =>
      show PathsOk G (addNeighbors p (neighbors G v) paths nxt).1
      have hok := hps (v, p) (lookupP_mem paths v p hl)
      exact addNeighbors_ok G v p hok.1 (Or.inr hok.2) _ _ _
        (fun w hw => mem_neighbors hw) hps

theorem bfsLoop_ok (G : PyGraph) :
    ∀ (fuel : Nat) (lvl : List Nat) (paths : Paths),
      PathsOk G paths → PathsOk G (bfsLoop G fuel lvl paths)
  | 0, _, _, hps => hps
  | _ + 1, [], _, hps => hps
  | fuel + 1, v :: vs, paths, hps => by
    show PathsOk G (bfsLoop G fuel (bfsLevel G (v :: vs) paths []).2
      (bfsLevel G (v :: vs) paths []).1)
    exact bfsLoop_ok G fuel _ _ (bfsLevel_ok G (v :: vs) paths [] hps)

theorem relabel_mem_edges : ∀ (es : List ((Nat × Nat) × Nat)) (ns : List Nat)
    (base : Nat) (e' : (Nat × Nat) × Nat), e' ∈ relabelEdges ns base es →
    ∃ e ∈ es, e'.1.1 = nodeIdx ns e.1.1 ∧ e'.1.2 = nodeIdx ns e.1.2 ∧ base ≤ e'.2
  | [], _, _, _, h => by simp [relabelEdges] at h
  | e :: es, ns, base, e', h => by
    rw [relabelEdges] at h
    rcases List.mem_cons.1 h with h | h
    · subst h
      exact ⟨e, List.mem_cons_self _ _, rfl, rfl, le_refl _⟩
    · rcases relabel_mem_edges es ns (base + 1) e' h with ⟨e0, he0, h1, h2, h3⟩
      exact ⟨e0, List.mem_cons_of_mem _ he0, h1, h2, by omega⟩

theorem relabel_edges_mem : ∀ (es : List ((Nat × Nat) × Nat)) (ns : List Nat)
    (base : Nat) (e : (Nat × Nat) × Nat), e ∈ es →
    ∃ e' ∈ relabelEdges ns base es,
      e'.1.1 = nodeIdx ns e.1.1 ∧ e'.1.2 = nodeIdx ns e.1.2
  | [], _, _, _, h => absurd h (List.not_mem_nil _)
  | e0 :: es, ns, base, e, h => by
    rw [relabelEdges]
    rcases List.mem_cons.1 h with h | h
    · subst h
      exact ⟨_, List.mem_cons_self _ _, rfl, rfl⟩
    · rcases relabel_edges_mem es ns (base + 1) e h with ⟨e', he', h1, h2⟩
      exact ⟨e', List.mem_cons_of_mem _ he', h1, h2⟩

/-- Edges of the relabelled copy are exactly the original edges with both
endpoints sent through the identifier-to-integer mapping; in particular the
edge set of the copy does not depend on the heap. -/
theorem IsEdge_relabel_iff (st : Store) (G : PyGraph) (i j : Nat) :
    IsEdge (convert_node_labels_to_integers st G).2 i j ↔ IsEdgeIdx G i j := by
  constructor
  · rintro ⟨e', he', hc⟩
    rcases relabel_mem_edges G.edges G.nodes st.length e' he' with ⟨e, he, h1, h2, -⟩
    refine ⟨e, he, ?_⟩
    rcases hc with ⟨ha, hb⟩ | ⟨ha, hb⟩
    · exact Or.inl ⟨h1.symm.trans ha, h2.symm.trans hb⟩
    · exact Or.inr ⟨h1.symm.trans ha, h2.symm.trans hb⟩
  · rintro ⟨e, he, hc⟩
    rcases relabel_edges_mem G.edges G.nodes st.length e he with ⟨e', he', h1, h2⟩
    refine ⟨e', he', ?_⟩
    rcases hc with ⟨ha, hb⟩ | ⟨ha, hb⟩
    · exact Or.inl ⟨h1.trans ha, h2.trans hb⟩
    · exact Or.inr ⟨h1.trans ha, h2.trans hb⟩

theorem sssp_paths_ok {G : PyGraph} {r : Nat} {ps : Paths}
    (h : single_source_shortest_path G r = Except.ok ps) : PathsOk G ps := by
  rw [single_source_shortest_path] at h
  split at h
  · injection h with h
    subst h
    apply bfsLoop_ok
    intro kp hkp
    have : kp = (r, [r]) := by simpa using hkp
    subst this
    exact ⟨fun q hq => by simp [pairsOf] at hq, rfl⟩
  · cases h

/-- Zeta-free restatement of the unweighted `_SPT` (the `let Gn = ...` of the
source, unfolded), for use with `split`. -/
theorem SPT_unw_eq (st : Store) (G : PyGraph) (r : Nat) :
    SalienceUnw._SPT st G r =
      (if G.directed || G.multigraph then
        (st, Except.error PyErr.unsupportedGraphShape)
      else
        match single_source_shortest_path
            (convert_node_labels_to_integers st G).2 r with
        | Except.error e =>
            ((convert_node_labels_to_integers st G).1, Except.error e)
        | Except.ok paths =>
            ((convert_node_labels_to_integers st G).1,
             Except.ok (fillT zeroM paths))) := rfl

/-- Zeta-free restatement of the weighted `_SPT`. -/
theorem SPT_w_eq (oracle : PathOracle) (st : Store) (G : PyGraph) (r : Nat)
    (key : String) :
    Salience._SPT oracle st G r key =
      (if G.directed || G.multigraph then
        (st, Except.error PyErr.unsupportedGraphShape)
      else
        match addProximity key (convert_node_labels_to_integers st G).1
            (convert_node_labels_to_integers st G).2.edges with
        | (st2, some e) => (st2, Except.error e)
        | (st2, none) =>
          if r ∈ (convert_node_labels_to_integers st G).2.nodes then
            (st2, Except.ok (fillT zeroM
              (oracle st2 (convert_node_labels_to_integers st G).2 r)))
          else (st2, Except.error PyErr.nodeNotFound)) := rfl

/-- Zeta-free restatement of the unweighted `salience`. -/
theorem salience_unw_eq (st : Store) (G : PyGraph) :
    SalienceUnw.salience st G =
      (match salienceLoop (fun s n => SalienceUnw._SPT s G n)
          (convert_node_labels_to_integers st G).2.nodes
          (convert_node_labels_to_integers st G).1 zeroM with
        | (st2, Except.error e) => (st2, Except.error e)
        | (st2, Except.ok S) =>
            (st2, Except.ok (fun i j => S i j / (G.nodes.length : ℚ)))) := rfl

/-- Zeta-free restatement of the weighted `salience`. -/
theorem salience_w_eq (oracle : PathOracle) (st : Store) (G : PyGraph)
    (key : String) :
    Salience.salience oracle st G key =
      (match salienceLoop (fun s n => Salience._SPT oracle s G n key)
          (convert_node_labels_to_integers st G).2.nodes
          (convert_node_labels_to_integers st G).1 zeroM with
        | (st2, Except.error e) => (st2, Except.error e)
        | (st2, Except.ok S) =>
            (st2, Except.ok (fun i j => S i j / (G.nodes.length : ℚ)))) := rfl

theorem salienceLoop_entry_zero (spt : Store → Nat → Store × Except PyErr SMat)
    (i j : Nat)
    (hz : ∀ st n st2 T, spt st n = (st2, Except.ok T) → T i j = 0) :
    ∀ (ns : List Nat) (st : Store) (S : SMat) (st2 : Store) (S2 : SMat),
      salienceLoop spt ns st S = (st2, Except.ok S2) → S2 i j = S i j
  | [], st, S, st2, S2, h => by
    rw [salienceLoop, Prod.mk.injEq] at h
    obtain ⟨-, h2⟩ := h
    injection h2 with h2
    rw [← h2]
  | n :: ns, st, S, st2, S2, h => by
    rw [salienceLoop] at h
    cases hspt : spt st n with
    | mk st3 res =>
      rw [hspt] at h
      cases res with
      | error e => simp at h
      | ok T =>
        have hT : T i j = 0 := hz st n st3 T hspt
        have := salienceLoop_entry_zero spt i j hz ns st3 (addMat S T) st2 S2 h
        rw [this]
        show S i j + T i j = S i j
        rw [hT, add_zero]

theorem salienceLoop_bound (spt : Store → Nat → Store × Except PyErr SMat)
    (i j : Nat)
    (hb : ∀ st n st2 T, spt st n = (st2, Except.ok T) →
      0 ≤ T i j ∧ T i j ≤ 1) :
    ∀ (ns : List Nat) (st : Store) (S : SMat) (st2 : Store) (S2 : SMat),
      salienceLoop spt ns st S = (st2, Except.ok S2) →
      S i j ≤ S2 i j ∧ S2 i j ≤ S i j + ns.length
  | [], st, S, st2, S2, h => by
    rw [salienceLoop, Prod.mk.injEq] at h
    obtain ⟨-, h2⟩ := h
    injection h2 with h2
    rw [← h2]
    simp
  | n :: ns, st, S, st2, S2, h => by
    rw [salienceLoop] at h
    cases hspt : spt st n with
    | mk st3 res =>
      rw [hspt] at h
      cases res with
      | error e => simp at h
      | ok T =>
        have hT := hb st n st3 T hspt
        have hrec := salienceLoop_bound spt i j hb ns st3 (addMat S T) st2 S2 h
        have ham : addMat S T i j = S i j + T i j := rfl
        rw [ham] at hrec
        constructor
        · calc S i j ≤ S i j + T i j := by linarith [hT.1]
            _ ≤ S2 i j := hrec.1
        · have hlen : ((n :: ns).length : ℚ) = (ns.length : ℚ) + 1 := by
            push_cast [List.length_cons]
            ring
          rw [hlen]
          calc S2 i j ≤ S i j + T i j + ns.length := hrec.2
            _ ≤ S i j + ((ns.length : ℚ) + 1) := by linarith [hT.2]

theorem salienceLoop_ok (spt : Store → Nat → Store × Except PyErr SMat) :
    ∀ (ns : List Nat) (st : Store) (S : SMat),
      (∀ st1 n, n ∈ ns → ∃ st2 T, spt st1 n = (st2, Except.ok T)) →
      ∃ st2 S2, salienceLoop spt ns st S = (st2, Except.ok S2)
  | [], st, S, _ => ⟨st, S, rfl⟩
  | n :: ns, st, S, hok => by
    obtain ⟨st2, T, hT⟩ := hok st n (List.mem_cons_self _ _)
    rw [salienceLoop, hT]
    exact salienceLoop_ok spt ns st2 (addMat S T)
      (fun st1 m hm => hok st1 m (List.mem_cons_of_mem _ hm))

theorem salienceLoop_ne_err (spt : Store → Nat → Store × Except PyErr SMat)
    (er : PyErr) :
    ∀ (ns : List Nat) (st : Store) (S : SMat),
      (∀ st1 n, n ∈ ns → (spt st1 n).2 ≠ Except.error er) →
      (salienceLoop spt ns st S).2 ≠ Except.error er
  | [], st, S, _ => by
    rw [salienceLoop]
    simp
  | n :: ns, st, S, h => by
    rw [salienceLoop]
    cases hspt : spt st n with
    | mk st2 res =>
      cases res with
      | error e =>
        intro hc
        apply h st n (List.mem_cons_self _ _)
        rw [hspt]
        exact hc
      | ok T =>
        exact salienceLoop_ne_err spt er ns st2 (addMat S T)
          (fun st1 m hm => h st1 m (List.mem_cons_of_mem _ hm))

theorem salienceLoop_store (spt : Store → Nat → Store × Except PyErr SMat)
    (P : Store → Prop) (hspt : ∀ st n, P st → P (spt st n).1) :
    ∀ (ns : List Nat) (st : Store) (S : SMat),
      P st → P (salienceLoop spt ns st S).1
  | [], _, _, h => h
  | n :: ns, st, S, h => by
    rw [salienceLoop]
    cases hspt2 : spt st n with
    | mk st2 res =>
      have hP2 : P st2 := by
        have := hspt st n h
        rwa [hspt2] at this
      cases res with
      | error e => exact hP2
      | ok T => exact salienceLoop_store spt P hspt ns st2 (addMat S T) hP2

theorem salienceLoop_cons_err (spt : Store → Nat → Store × Except PyErr SMat)
    (n0 : Nat) (ns : List Nat) (st : Store) (S : SMat) (st4 : Store) (e : PyErr)
    (h : spt st n0 = (st4, Except.error e)) :
    salienceLoop spt (n0 :: ns) st S = (st4, Except.error e) := by
  rw [salienceLoop, h]

theorem salience_unw_of_loop_ok (st : Store) (G : PyGraph) (st2 : Store)
    (S : SMat)
    (hloop : salienceLoop (fun s n => SalienceUnw._SPT s G n)
        (convert_node_labels_to_integers st G).2.nodes
        (convert_node_labels_to_integers st G).1 zeroM =
        (st2, Except.ok S)) :
    SalienceUnw.salience st G =
      (st2, Except.ok (fun i j => S i j / (G.nodes.length : ℚ))) := by
  rw [salience_unw_eq, hloop]

theorem salience_w_of_loop_ok (oracle : PathOracle) (key : String) (st : Store)
    (G : PyGraph) (st2 : Store) (S : SMat)
    (hloop : salienceLoop (fun s n => Salience._SPT oracle s G n key)
        (convert_node_labels_to_integers st G).2.nodes
        (convert_node_labels_to_integers st G).1 zeroM =
        (st2, Except.ok S)) :
    Salience.salience oracle st G key =
      (st2, Except.ok (fun i j => S i j / (G.nodes.length : ℚ))) := by
  rw [salience_w_eq, hloop]

theorem salience_unw_of_loop_err (st : Store) (G : PyGraph) (st2 : Store)
    (e : PyErr)
    (hloop : salienceLoop (fun s n => SalienceUnw._SPT s G n)
        (convert_node_labels_to_integers st G).2.nodes
        (convert_node_labels_to_integers st G).1 zeroM =
        (st2, Except.error e)) :
    SalienceUnw.salience st G = (st2, Except.error e) := by
  rw [salience_unw_eq, hloop]

theorem salience_w_of_loop_err (oracle : PathOracle) (key : String) (st : Store)
    (G : PyGraph) (st2 : Store) (e : PyErr)
    (hloop : salienceLoop (fun s n => Salience._SPT oracle s G n key)
        (convert_node_labels_to_integers st G).2.nodes
        (convert_node_labels_to_integers st G).1 zeroM =
        (st2, Except.error e)) :
    Salience.salience oracle st G key = (st2, Except.error e) := by
  rw [salience_w_eq, hloop]

/-- A successful unweighted `_SPT` call produces `fillT zeroM ps` for a
BFS paths dictionary `ps` that satisfies the walk invariant. -/
theorem SPT_unw_ok_paths (st : Store) (G : PyGraph) (r : Nat) (st2 : Store)
    (T : SMat) (h : SalienceUnw._SPT st G r = (st2, Except.ok T)) :
    ∃ ps, T = fillT zeroM ps ∧
      PathsOk (convert_node_labels_to_integers st G).2 ps := by
  rw [SPT_unw_eq] at h
  split at h
  · simp at h
  · split at h
    · simp at h
    · rename_i paths heq
      rw [Prod.mk.injEq] at h
      obtain ⟨-, h2⟩ := h
      injection h2 with h2
      exact ⟨paths, h2.symm, sssp_paths_ok heq⟩

/-- A successful weighted `_SPT` call produces `fillT zeroM ps` for the
paths dictionary reported by the Dijkstra collaborator on the relabelled
graph. -/
theorem SPT_w_ok_paths (oracle : PathOracle) (key : String) (st : Store)
    (G : PyGraph) (r : Nat) (st2 : Store) (T : SMat)
    (h : Salience._SPT oracle st G r key = (st2, Except.ok T)) :
    ∃ ps, T = fillT zeroM ps ∧
      (ValidOracle oracle →
        PathsUse (convert_node_labels_to_integers st G).2 ps) := by
  rw [SPT_w_eq] at h
  split at h
  · simp at h
  · split at h
    · simp at h
    · split at h
      · rename_i st3 heq hmem
        rw [Prod.mk.injEq] at h
        obtain ⟨-, h2⟩ := h
        injection h2 with h2
        exact ⟨_, h2.symm, fun hor => hor _ _ _⟩
      · simp at h

/-- Entries of any SPT matrix are 0 or 1 (unweighted variant). -/
theorem SPT_unw_entry01 (st : Store) (G : PyGraph) (r : Nat) (st2 : Store)
    (T : SMat) (h : SalienceUnw._SPT st G r = (st2, Except.ok T)) (i j : Nat) :
    T i j = 0 ∨ T i j = 1 := by
  obtain ⟨ps, hT, -⟩ := SPT_unw_ok_paths st G r st2 T h
  rw [hT]
  exact fillT_entry01 i j ps zeroM (Or.inl rfl)

/-- Entries of any SPT matrix are 0 or 1 (weighted variant, for any
collaborator whatsoever). -/
theorem SPT_w_entry01 (oracle : PathOracle) (key : String) (st : Store)
    (G : PyGraph) (r : Nat) (st2 : Store) (T : SMat)
    (h : Salience._SPT oracle st G r key = (st2, Except.ok T)) (i j : Nat) :
    T i j = 0 ∨ T i j = 1 := by
  obtain ⟨ps, hT, -⟩ := SPT_w_ok_paths oracle key st G r st2 T h
  rw [hT]
  exact fillT_entry01 i j ps zeroM (Or.inl rfl)

/-- An SPT matrix is zero at every pair that is not a relabelled edge
(unweighted variant). -/
theorem SPT_unw_entry_nonedge (st : Store) (G : PyGraph) (r : Nat)
    (st2 : Store) (T : SMat)
    (h : SalienceUnw._SPT st G r = (st2, Except.ok T)) (i j : Nat)
    (hij : ¬ IsEdgeIdx G i j) : T i j = 0 := by
  obtain ⟨ps, hT, hok⟩ := SPT_unw_ok_paths st G r st2 T h
  rw [hT]
  have hne : ¬ IsEdge (convert_node_labels_to_integers st G).2 i j :=
    fun hc => hij ((IsEdge_relabel_iff st G i j).1 hc)
  exact fillT_entry_of_ne _ i j hne ps zeroM (fun kp hkp => (hok kp hkp).1)

/-- An SPT matrix is zero at every pair that is not a relabelled edge
(weighted variant, conforming collaborator). -/
theorem SPT_w_entry_nonedge (oracle : PathOracle) (key : String) (st : Store)
    (G : PyGraph) (r : Nat) (st2 : Store) (T : SMat)
    (hor : ValidOracle oracle)
    (h : Salience._SPT oracle st G r key = (st2, Except.ok T)) (i j : Nat)
    (hij : ¬ IsEdgeIdx G i j) : T i j = 0 := by
  obtain ⟨ps, hT, hps⟩ := SPT_w_ok_paths oracle key st G r st2 T h
  rw [hT]
  have hne : ¬ IsEdge (convert_node_labels_to_integers st G).2 i j :=
    fun hc => hij ((IsEdge_relabel_iff st G i j).1 hc)
  exact fillT_entry_of_ne _ i j hne ps zeroM (hps hor)

/-- The unweighted `_SPT` succeeds whenever the shape checks pass and the
reference is one of the dense indices `0..N-1`. -/
theorem SPT_unw_ok (st : Store) (G : PyGraph) (r : Nat)
    (hd : G.directed = false) (hm : G.multigraph = false)
    (hr : r < G.nodes.length) :
    ∃ T, SalienceUnw._SPT st G r =
      ((convert_node_labels_to_integers st G).1, Except.ok T) := by
  have hflag : (G.directed || G.multigraph) = false := by rw [hd, hm]; rfl
  have hmem : r ∈ (convert_node_labels_to_integers st G).2.nodes :=
    List.mem_range.2 hr
  have hs : single_source_shortest_path
      (convert_node_labels_to_integers st G).2 r =
      Except.ok (bfsLoop (convert_node_labels_to_integers st G).2
        ((convert_node_labels_to_integers st G).2.nodes.length + 1) [r]
        [(r, [r])]) := by
    rw [single_source_shortest_path, if_pos hmem]
  refine ⟨fillT zeroM (bfsLoop (convert_node_labels_to_integers st G).2
    ((convert_node_labels_to_integers st G).2.nodes.length + 1) [r]
    [(r, [r])]), ?_⟩
  rw [SPT_unw_eq, hflag, if_neg Bool.false_ne_true, hs]

/-- With the directed or multigraph flag raised, both `_SPT`s stop with
`UnsupportedGraphShape` (the decorator fires before the body runs). -/
theorem SPT_unw_unsupported (st : Store) (G : PyGraph) (r : Nat)
    (hflag : (G.directed || G.multigraph) = true) :
    SalienceUnw._SPT st G r =
      (st, Except.error PyErr.unsupportedGraphShape) := by
  rw [SPT_unw_eq, if_pos hflag]

theorem SPT_w_unsupported (oracle : PathOracle) (key : String) (st : Store)
    (G : PyGraph) (r : Nat) (hflag : (G.directed || G.multigraph) = true) :
    Salience._SPT oracle st G r key =
      (st, Except.error PyErr.unsupportedGraphShape) := by
  rw [SPT_w_eq, if_pos hflag]

/-- The weighted `_SPT` on an edgeless graph succeeds: the proximity loop
is vacuous and the collaborator is consulted directly. -/
theorem SPT_w_ok_of_no_edges (oracle : PathOracle) (key : String) (s : Store)
    (G : PyGraph) (n : Nat) (hd : G.directed = false)
    (hm : G.multigraph = false) (hedges : G.edges = [])
    (hn : n < G.nodes.length) :
    Salience._SPT oracle s G n key =
      ((convert_node_labels_to_integers s G).1,
       Except.ok (fillT zeroM (oracle (convert_node_labels_to_integers s G).1
         (convert_node_labels_to_integers s G).2 n))) := by
  have hflag : (G.directed || G.multigraph) = false := by rw [hd, hm]; rfl
  have he2 : (convert_node_labels_to_integers s G).2.edges = [] := by
    show relabelEdges G.nodes s.length G.edges = []
    rw [hedges]
    rfl
  have hap : addProximity key (convert_node_labels_to_integers s G).1
      (convert_node_labels_to_integers s G).2.edges =
      ((convert_node_labels_to_integers s G).1, none) := by
    rw [he2]
    rfl
  rw [SPT_w_eq, hflag, if_neg Bool.false_ne_true, hap]
  show (if n ∈ (convert_node_labels_to_integers s G).2.nodes then
      ((convert_node_labels_to_integers s G).1,
       Except.ok (fillT zeroM (oracle (convert_node_labels_to_integers s G).1
         (convert_node_labels_to_integers s G).2 n)))
    else ((convert_node_labels_to_integers s G).1,
      Except.error PyErr.nodeNotFound)) = _
  rw [if_pos (show n ∈ (convert_node_labels_to_integers s G).2.nodes from
    List.mem_range.2 hn)]

theorem addProximity_ne_nodeNotFound (key : String) :
    ∀ (es : List ((Nat × Nat) × Nat)) (st : Store),
      (addProximity key st es).2 ≠ some PyErr.nodeNotFound
  | [], st => by simp [addProximity]
  | e :: es, st => by
    rw [addProximity]
    split
    · simp
    · split
      · simp
      · exact addProximity_ne_nodeNotFound key es _

/-- The weighted `_SPT` can only report `NodeNotFound` when the reference
is not one of the dense indices, which never happens for references drawn
from the relabelled node range. -/
theorem SPT_w_ne_nodeNotFound (oracle : PathOracle) (key : String)
    (st : Store) (G : PyGraph) (r : Nat) (hr : r < G.nodes.length) :
    (Salience._SPT oracle st G r key).2 ≠ Except.error PyErr.nodeNotFound := by
  rw [SPT_w_eq]
  split
  · simp
  · split
    · rename_i st3 e heq
      intro hc
      have he : e = PyErr.nodeNotFound := by simpa using hc
      have h2 : (addProximity key (convert_node_labels_to_integers st G).1
          (convert_node_labels_to_integers st G).2.edges).2 =
          some PyErr.nodeNotFound := by
        rw [heq, he]
      exact addProximity_ne_nodeNotFound key _ _ h2
    · split
      · simp
      · rename_i hmem
        exact absurd (List.mem_range.2 hr) hmem

/-- Division of an accumulator entry by the node count stays in `[0,1]`. -/
theorem div_nat_mem_unit {x : ℚ} {n : ℕ} (h1 : 0 ≤ x) (h2 : x ≤ (n : ℚ)) :
    0 ≤ x / (n : ℚ) ∧ x / (n : ℚ) ≤ 1 := by
  constructor
  · exact div_nonneg h1 (Nat.cast_nonneg n)
  · rcases Nat.eq_zero_or_pos n with h | h
    · subst h
      simp only [Nat.cast_zero] at h2
      have hx : x = 0 := le_antisymm h2 h1
      simp [hx]
    · have hn : (0 : ℚ) < n := by exact_mod_cast h
      rw [div_le_one hn]
      exact h2

/-- The endpoint relabelling does not depend on where the fresh attribute
cells start: both the aggregator's relabelling and the one inside `_SPT`
realise the same identifier-to-integer bijection. -/
theorem relabelEdges_map_fst : ∀ (es : List ((Nat × Nat) × Nat))
    (ns : List Nat) (b1 b2 : Nat),
    (relabelEdges ns b1 es).map Prod.fst = (relabelEdges ns b2 es).map Prod.fst
  | [], _, _, _ => rfl
  | e :: es, ns, b1, b2 => by
    rw [relabelEdges, relabelEdges, List.map_cons, List.map_cons,
      relabelEdges_map_fst es ns (b1 + 1) (b2 + 1)]

theorem getD_append_len (l1 : Store) (d : AttrDict) (l2 : Store) :
    (l1 ++ d :: l2).getD l1.length [] = d := by
  rw [List.getD_eq_getElem?_getD, List.getElem?_append_right (le_refl l1.length)]
  simp

theorem set_append_len : ∀ (l1 : Store) (d d' : AttrDict) (l2 : Store),
    (l1 ++ d :: l2).set l1.length d' = l1 ++ d' :: l2
  | [], _, _, _ => rfl
  | a :: l1, d, d', l2 => by
    show a :: ((l1 ++ d :: l2).set l1.length d') = a :: (l1 ++ d' :: l2)
    rw [set_append_len l1 d d' l2]

theorem getD_append_left_of_lt (l1 l2 : Store) (c : Nat) (hc : c < l1.length) :
    (l1 ++ l2).getD c [] = l1.getD c [] := by
  rw [List.getD_eq_getElem?_getD, List.getD_eq_getElem?_getD,
    List.getElem?_append_left hc]

/-- Core of the zero-weight analysis: running the proximity loop over the
relabelled copy of an edge suffix whose fresh cells hold copies of the
original dictionaries dies with `ZeroDivisionError` (`invalidWeight`) as
soon as some edge's weight reads zero, provided every edge has the weight
key.  `pre` accumulates the cells already rewritten by the loop. -/
theorem addProximity_zero_aux (key : String) (s : Store) (ns : List Nat) :
    ∀ (es : List ((Nat × Nat) × Nat)) (pre : List AttrDict),
      (∀ e ∈ es, (lookupQ key (s.getD e.2 [])).isSome = true) →
      (∃ e ∈ es, lookupQ key (s.getD e.2 []) = some 0) →
      (addProximity key ((s ++ pre) ++ copyDicts s es)
        (relabelEdges ns (s ++ pre).length es)).2 = some PyErr.invalidWeight
  | [], pre, _, hzero => by
    rcases hzero with ⟨e, he, -⟩
    exact absurd he (List.not_mem_nil _)
  | e :: es, pre, hsome, hzero => by
    have hB : (((nodeIdx ns e.1.1, nodeIdx ns e.1.2),
        (s ++ pre).length) : (Nat × Nat) × Nat).2 = (s ++ pre).length := rfl
    rw [relabelEdges, addProximity, hB,
      show copyDicts s (e :: es) = s.getD e.2 [] :: copyDicts s es from rfl,
      getD_append_len]
    split
    · rename_i heq
      have hs' := hsome e (List.mem_cons_self _ _)
      rw [heq] at hs'
      simp at hs'
    · rename_i w heq
      by_cases hw : w = 0
      · rw [if_pos hw]
      · rw [if_neg hw, set_append_len]
        have h1 : (s ++ pre) ++ (("proximity", 1 / w) :: s.getD e.2 []) ::
            copyDicts s es =
            (s ++ (pre ++ [("proximity", 1 / w) :: s.getD e.2 []])) ++
              copyDicts s es := by
          simp
        have h2 : (s ++ pre).length + 1 =
            (s ++ (pre ++ [("proximity", 1 / w) :: s.getD e.2 []])).length := by
          simp only [List.length_append, List.length_singleton]
          omega
        rw [h1, h2]
        apply addProximity_zero_aux key s ns es _
          (fun x hx => hsome x (List.mem_cons_of_mem _ hx))
        rcases hzero with ⟨e0, he0, hz⟩
        rcases List.mem_cons.1 he0 with he0 | he0
        · exfalso
          rw [he0] at hz
          rw [hz] at heq
          injection heq with heq
          exact hw heq.symm
        · exact ⟨e0, he0, hz⟩

theorem addProximity_frame (key : String) (c : Nat) :
    ∀ (es : List ((Nat × Nat) × Nat)) (st : Store),
      (∀ e ∈ es, c ≠ e.2) →
      (addProximity key st es).1[c]? = st[c]? ∧
      (addProximity key st es).1.length = st.length
  | [], _, _ => ⟨rfl, rfl⟩
  | e :: es, st, h => by
    rw [addProximity]
    split
    · exact ⟨rfl, rfl⟩
    · rename_i w heq
      by_cases hw : w = 0
      · rw [if_pos hw]
        exact ⟨rfl, rfl⟩
      · rw [if_neg hw]
        have hrec := addProximity_frame key c es
          (st.set e.2 (("proximity", 1 / w) :: st.getD e.2 []))
          (fun x hx => h x (List.mem_cons_of_mem _ hx))
        refine ⟨?_, ?_⟩
        · rw [hrec.1, List.getElem?_set_ne (Ne.symm (h e (List.mem_cons_self _ _)))]
        · rw [hrec.2, List.length_set]

/-- Store cells below the caller's frontier survive a call: invariant
carried through relabelling and the proximity loop. -/
def ExtendsAt (st0 : Store) (c : Nat) (s : Store) : Prop :=
  s[c]? = st0[c]? ∧ st0.length ≤ s.length

theorem convert_extends (st0 : Store) (c : Nat) (hc : c < st0.length)
    (s : Store) (G : PyGraph) (h : ExtendsAt st0 c s) :
    ExtendsAt st0 c (convert_node_labels_to_integers s G).1 := by
  obtain ⟨h1, h2⟩ := h
  constructor
  · show (s ++ copyDicts s G.edges)[c]? = st0[c]?
    rw [List.getElem?_append_left (lt_of_lt_of_le hc h2), h1]
  · show st0.length ≤ (s ++ copyDicts s G.edges).length
    rw [List.length_append]
    omega

theorem SPT_unw_frame (st0 : Store) (c : Nat) (hc : c < st0.length)
    (G : PyGraph) (s : Store) (n : Nat) (h : ExtendsAt st0 c s) :
    ExtendsAt st0 c (SalienceUnw._SPT s G n).1 := by
  rw [SPT_unw_eq]
  split
  · exact h
  · split
    · exact convert_extends st0 c hc s G h
    · exact convert_extends st0 c hc s G h

theorem SPT_w_frame (st0 : Store) (c : Nat) (hc : c < st0.length)
    (oracle : PathOracle) (key : String) (G : PyGraph) (s : Store) (n : Nat)
    (h : ExtendsAt st0 c s) :
    ExtendsAt st0 c (Salience._SPT oracle s G n key).1 := by
  have hconv := convert_extends st0 c hc s G h
  have hcells : ∀ e ∈ (convert_node_labels_to_integers s G).2.edges,
      c ≠ e.2 := by
    intro e he
    rcases relabel_mem_edges G.edges G.nodes s.length e he with
      ⟨-, -, -, -, hbase⟩
    have h2 := h.2
    omega
  have hap := addProximity_frame key c
    (convert_node_labels_to_integers s G).2.edges
    (convert_node_labels_to_integers s G).1 hcells
  rw [SPT_w_eq]
  split
  · exact h
  · split
    · rename_i st3 e heq
      rw [heq] at hap
      exact ⟨hap.1.trans hconv.1, le_trans hconv.2 (le_of_eq hap.2.symm)⟩
    · rename_i st3 heq
      rw [heq] at hap
      split
      · exact ⟨hap.1.trans hconv.1, le_trans hconv.2 (le_of_eq hap.2.symm)⟩
      · exact ⟨hap.1.trans hconv.1, le_trans hconv.2 (le_of_eq hap.2.symm)⟩

/-- The empty directed graph. -/
def dirEmpty : PyGraph :=
  { nodes := [], edges := [], directed := true, multigraph := false }

/-- A one-node directed graph. -/
def dirOne : PyGraph :=
  { nodes := [7], edges := [], directed := true, multigraph := false }

/-- Two nodes joined by one edge whose weight attribute is 0. -/
def zeroWG : PyGraph :=
  { nodes := [4, 9], edges := [((4, 9), 0)], directed := false,
    multigraph := false }

def zeroWSt : Store := [[("weight", 0)]]

/-- A single isolated node. -/
def oneNodeG : PyGraph :=
  { nodes := [5], edges := [], directed := false, multigraph := false }

/-- A trivially conforming Dijkstra collaborator reporting no paths. -/
def nullOracle : PathOracle := fun _ _ _ => []

theorem nullOracle_valid : ValidOracle nullOracle :=
  fun _ _ _ _ hkp => absurd hkp (List.not_mem_nil _)

def isOkRes : Except PyErr SMat → Bool
  | Except.ok _ => true
  | Except.error _ => false

/-- C1: the claim asserts that the salience matrix is symmetric and that
the SPT builder sets both `matrix[u][v]` and `matrix[v][u]`.  The code sets
only `T[path[i]][path[i+1]] = 1` (src/salience.py line 73,
src/salience_unw.py line 60), contradicting `_SPT`'s own docstring
("T(r) is a symmetric N x N matrix"): on the path graph 0-1-2 the
unweighted salience matrix has entry (0,1) = 1/3 but entry (1,0) = 2/3. -/
theorem C1_salience_asymmetric_on_path3 :
    entryOf (SalienceUnw.salience st3 path3).2 0 1 = some (1 / 3) ∧
    entryOf (SalienceUnw.salience st3 path3).2 1 0 = some (2 / 3) ∧
    ((1 : ℚ) / 3 ≠ 2 / 3) := by
  refine ⟨?_, ?_, by norm_num⟩ <;>
    norm_num [SalienceUnw.salience, SalienceUnw._SPT, salienceLoop,
      convert_node_labels_to_integers, relabelEdges, copyDicts, nodeIdx,
      single_source_shortest_path, bfsLoop, bfsLevel, addNeighbors, lookupP,
      neighbors, nbrAux, fillT, markPath, setEntry, zeroM, addMat, entryOf,
      path3, st3, List.mem_range]

/-- C2: the claim expects entries (0,1) = 1.0, (1,2) = 1.0, (0,2) = 0 on
the path graph 0-1-2 (unweighted).  The code actually returns
(0,1) = 1/3, (1,2) = 2/3 (and (0,2) = 0 as claimed), again because only
one direction of each traversed edge is marked. -/
theorem C2_path3_salience_values :
    entryOf (SalienceUnw.salience st3 path3).2 0 1 = some (1 / 3) ∧
    entryOf (SalienceUnw.salience st3 path3).2 1 2 = some (2 / 3) ∧
    entryOf (SalienceUnw.salience st3 path3).2 0 2 = some 0 := by
  refine ⟨?_, ?_, ?_⟩ <;>
    norm_num [SalienceUnw.salience, SalienceUnw._SPT, salienceLoop,
      convert_node_labels_to_integers, relabelEdges, copyDicts, nodeIdx,
      single_source_shortest_path, bfsLoop, bfsLevel, addNeighbors, lookupP,
      neighbors, nbrAux, fillT, markPath, setEntry, zeroM, addMat, entryOf,
      path3, st3, List.mem_range]

/-- C3: the claim asserts every SPT matrix is symmetric (with 0/1 entries
and at most N-1 nonzero unordered pairs).  Symmetry fails: on the path
graph 0-1-2 with reference 0 the builder returns T with T[0][1] = 1 but
T[1][0] = 0, contradicting its own docstring. -/
theorem C3_SPT_asymmetric_on_path3 :
    entryOf (SalienceUnw._SPT st3 path3 0).2 0 1 = some 1 ∧
    entryOf (SalienceUnw._SPT st3 path3 0).2 1 0 = some 0 := by
  constructor <;>
    norm_num [SalienceUnw._SPT,
      convert_node_labels_to_integers, relabelEdges, copyDicts, nodeIdx,
      single_source_shortest_path, bfsLoop, bfsLevel, addNeighbors, lookupP,
      neighbors, nbrAux, fillT, markPath, setEntry, zeroM, entryOf,
      path3, st3, List.mem_range]

/-- C4: in the weighted variant, a zero edge weight makes the call fail
with `invalidWeight` (Python's `ZeroDivisionError` from `1./w`), raised in
the proximity loop of the first `_SPT` call: the conclusion holds for
every path oracle whatsoever, so no shortest-path computation and no SPT
matrix entry can have been consulted or produced, and the `Except` result
carries no partial salience matrix. -/
theorem C4_zero_weight_invalid_before_any_SPT (oracle : PathOracle)
    (key : String) (st : Store) (G : PyGraph)
    (hd : G.directed = false) (hm : G.multigraph = false)
    (hne : G.nodes ≠ [])
    (hcell : ∀ e ∈ G.edges, e.2 < st.length)
    (hsome : ∀ e ∈ G.edges, (lookupQ key (st.getD e.2 [])).isSome = true)
    (hzero : ∃ e ∈ G.edges, lookupQ key (st.getD e.2 []) = some 0) :
    (Salience.salience oracle st G key).2 =
      Except.error PyErr.invalidWeight := by
  have hflag : (G.directed || G.multigraph) = false := by rw [hd, hm]; rfl
  have hreads : ∀ e ∈ G.edges,
      (convert_node_labels_to_integers st G).1.getD e.2 [] =
        st.getD e.2 [] :=
    fun e he => getD_append_left_of_lt st (copyDicts st G.edges) e.2
      (hcell e he)
  have haux := addProximity_zero_aux key
    (convert_node_labels_to_integers st G).1 G.nodes G.edges []
    (fun e he => by rw [hreads e he]; exact hsome e he)
    (by
      rcases hzero with ⟨e, he, hz⟩
      exact ⟨e, he, by rw [hreads e he]; exact hz⟩)
  rw [List.append_nil] at haux
  have haux2 : (addProximity key
      (convert_node_labels_to_integers
        (convert_node_labels_to_integers st G).1 G).1
      (convert_node_labels_to_integers
        (convert_node_labels_to_integers st G).1 G).2.edges).2 =
      some PyErr.invalidWeight := haux
  have hSPT : ∀ n, (Salience._SPT oracle
      (convert_node_labels_to_integers st G).1 G n key).2 =
      Except.error PyErr.invalidWeight := by
    intro n
    rw [SPT_w_eq, hflag, if_neg Bool.false_ne_true]
    cases hap : addProximity key
        (convert_node_labels_to_integers
          (convert_node_labels_to_integers st G).1 G).1
        (convert_node_labels_to_integers
          (convert_node_labels_to_integers st G).1 G).2.edges with
    | mk st4 res =>
      rw [hap] at haux2
      have hres : res = some PyErr.invalidWeight := haux2
      rw [hres]
  cases hnodes : (convert_node_labels_to_integers st G).2.nodes with
  | nil =>
    exfalso
    have hlen : G.nodes.length = 0 := by
      have h0 := congrArg List.length hnodes
      simpa [convert_node_labels_to_integers] using h0
    exact hne (List.length_eq_zero.1 hlen)
  | cons n0 rest =>
    cases hpair : Salience._SPT oracle
        (convert_node_labels_to_integers st G).1 G n0 key with
    | mk st5 res5 =>
      have hres5 : res5 = Except.error PyErr.invalidWeight := by
        have h5 := hSPT n0
        rwa [hpair] at h5
      rw [hres5] at hpair
      have hloop := salienceLoop_cons_err
        (fun s n => Salience._SPT oracle s G n key) n0 rest
        (convert_node_labels_to_integers st G).1 zeroM st5
        PyErr.invalidWeight hpair
      have hl2 : salienceLoop (fun s n => Salience._SPT oracle s G n key)
          (convert_node_labels_to_integers st G).2.nodes
          (convert_node_labels_to_integers st G).1 zeroM =
          (st5, Except.error PyErr.invalidWeight) := by
        rw [hnodes]
        exact hloop
      rw [salience_w_of_loop_err oracle key st G st5 PyErr.invalidWeight hl2]

/-- C4 witness: a concrete two-node graph whose single edge has weight 0
makes the weighted `salience` fail with `invalidWeight`. -/
theorem C4_zero_weight_invalid_before_any_SPT_witness :
    (Salience.salience nullOracle zeroWSt zeroWG "weight").2 =
      Except.error PyErr.invalidWeight :=
  C4_zero_weight_invalid_before_any_SPT nullOracle "weight" zeroWSt zeroWG
    rfl rfl (by simp [zeroWG])
    (by intro e he; simp [zeroWG] at he; rw [he]; simp [zeroWSt])
    (by intro e he; simp [zeroWG] at he; rw [he]; simp [zeroWSt, lookupQ])
    ⟨((4, 9), 0), by simp [zeroWG], by simp [zeroWSt, lookupQ]⟩

/-- C5: on an accepted graph with zero or one node (so, being simple, with
no edges), both variants return the everywhere-zero matrix (the 0x0 or 1x1
zero matrix under the function-matrix convention), and the final division
by `N` harms no entry: for `N = 0` the loop contributes nothing and the
matrix has no live entries, for `N = 1` every accumulator entry is 0. -/
theorem C5_small_graph_zero_matrix (st stw : Store) (G : PyGraph)
    (key : String) (oracle : PathOracle) (hor : ValidOracle oracle)
    (hd : G.directed = false) (hm : G.multigraph = false)
    (hsimple : ∀ e ∈ G.edges,
      e.1.1 ∈ G.nodes ∧ e.1.2 ∈ G.nodes ∧ e.1.1 ≠ e.1.2)
    (hN : G.nodes.length ≤ 1) :
    (∀ i j, entryOf (SalienceUnw.salience st G).2 i j = some 0) ∧
    (∀ i j, entryOf (Salience.salience oracle stw G key).2 i j = some 0) := by
  have hedges : G.edges = [] := by
    cases he : G.edges with
    | nil => rfl
    | cons e es =>
      obtain ⟨h1, h2, h3⟩ := hsimple e
        (by rw [he]; exact List.mem_cons_self _ _)
      exfalso
      cases hn : G.nodes with
      | nil =>
        rw [hn] at h1
        exact (List.not_mem_nil _) h1
      | cons a l =>
        cases l with
        | nil =>
          rw [hn] at h1 h2
          simp at h1 h2
          exact h3 (h1.trans h2.symm)
        | cons b l2 =>
          rw [hn] at hN
          simp only [List.length_cons] at hN
          omega
  have hnoedge : ∀ i j, ¬ IsEdgeIdx G i j := by
    rintro i j ⟨e, he, -⟩
    rw [hedges] at he
    exact (List.not_mem_nil _) he
  constructor
  · have hok : ∀ st1 n, n ∈ (convert_node_labels_to_integers st G).2.nodes →
        ∃ st2 T, SalienceUnw._SPT st1 G n = (st2, Except.ok T) := by
      intro st1 n hn
      obtain ⟨T, hT⟩ := SPT_unw_ok st1 G n hd hm (List.mem_range.1 hn)
      exact ⟨_, T, hT⟩
    obtain ⟨st2, S2, hloop⟩ := salienceLoop_ok
      (fun s n => SalienceUnw._SPT s G n)
      (convert_node_labels_to_integers st G).2.nodes
      (convert_node_labels_to_integers st G).1 zeroM hok
    intro i j
    rw [salience_unw_of_loop_ok st G st2 S2 hloop]
    have hzz : ∀ s n s2 T, SalienceUnw._SPT s G n = (s2, Except.ok T) →
        T i j = 0 :=
      fun s n s2 T h => SPT_unw_entry_nonedge s G n s2 T h i j (hnoedge i j)
    have hz := salienceLoop_entry_zero (fun s n => SalienceUnw._SPT s G n)
      i j hzz _ _ _ _ _ hloop
    show some (S2 i j / (G.nodes.length : ℚ)) = some 0
    rw [hz]
    show some ((0 : ℚ) / (G.nodes.length : ℚ)) = some 0
    rw [zero_div]
  · have hok : ∀ st1 n, n ∈ (convert_node_labels_to_integers stw G).2.nodes →
        ∃ st2 T, Salience._SPT oracle st1 G n key = (st2, Except.ok T) := by
      intro st1 n hn
      exact ⟨_, _, SPT_w_ok_of_no_edges oracle key st1 G n hd hm hedges
        (List.mem_range.1 hn)⟩
    obtain ⟨st2, S2, hloop⟩ := salienceLoop_ok
      (fun s n => Salience._SPT oracle s G n key)
      (convert_node_labels_to_integers stw G).2.nodes
      (convert_node_labels_to_integers stw G).1 zeroM hok
    intro i j
    rw [salience_w_of_loop_ok oracle key stw G st2 S2 hloop]
    have hzz : ∀ s n s2 T,
        Salience._SPT oracle s G n key = (s2, Except.ok T) → T i j = 0 :=
      fun s n s2 T h => SPT_w_entry_nonedge oracle key s G n s2 T hor h i j
        (hnoedge i j)
    have hz := salienceLoop_entry_zero
      (fun s n => Salience._SPT oracle s G n key) i j hzz _ _ _ _ _ hloop
    show some (S2 i j / (G.nodes.length : ℚ)) = some 0
    rw [hz]
    show some ((0 : ℚ) / (G.nodes.length : ℚ)) = some 0
    rw [zero_div]

/-- C5 witness: the one-node graph yields the 1x1 zero matrix in both
variants. -/
theorem C5_small_graph_zero_matrix_witness :
    entryOf (SalienceUnw.salience [] oneNodeG).2 0 0 = some 0 ∧
    entryOf (Salience.salience nullOracle [] oneNodeG "weight").2 0 0 =
      some 0 := by
  have h := C5_small_graph_zero_matrix [] [] oneNodeG "weight" nullOracle
    nullOracle_valid rfl rfl
    (by intro e he; exact absurd he (List.not_mem_nil _))
    (by decide)
  exact ⟨h.1 0 0, h.2 0 0⟩

/-- C6: entries of the salience matrix at pairs that are not relabelled
edges are 0 in both variants: an SPT only ever marks consecutive pairs of
reported shortest paths, which are edges of the relabelled graph. -/
theorem C6_salience_zero_on_nonedges (st stw : Store) (G : PyGraph)
    (key : String) (oracle : PathOracle) (hor : ValidOracle oracle)
    (i j : Nat) (hij : ¬ IsEdgeIdx G i j) :
    (∀ q, entryOf (SalienceUnw.salience st G).2 i j = some q → q = 0) ∧
    (∀ q, entryOf (Salience.salience oracle stw G key).2 i j = some q →
      q = 0) := by
  constructor
  · intro q hq
    rw [salience_unw_eq] at hq
    cases hloop : salienceLoop (fun s n => SalienceUnw._SPT s G n)
        (convert_node_labels_to_integers st G).2.nodes
        (convert_node_labels_to_integers st G).1 zeroM with
    | mk st2 res =>
      rw [hloop] at hq
      cases res with
      | error e => simp [entryOf] at hq
      | ok S =>
        have hzz : ∀ s n s2 T, SalienceUnw._SPT s G n = (s2, Except.ok T) →
            T i j = 0 :=
          fun s n s2 T h => SPT_unw_entry_nonedge s G n s2 T h i j hij
        have hz := salienceLoop_entry_zero (fun s n => SalienceUnw._SPT s G n)
          i j hzz _ _ _ _ _ hloop
        have hq2 : some (S i j / (G.nodes.length : ℚ)) = some q := hq
        injection hq2 with hq2
        rw [← hq2, hz]
        show (0 : ℚ) / (G.nodes.length : ℚ) = 0
        rw [zero_div]
  · intro q hq
    rw [salience_w_eq] at hq
    cases hloop : salienceLoop (fun s n => Salience._SPT oracle s G n key)
        (convert_node_labels_to_integers stw G).2.nodes
        (convert_node_labels_to_integers stw G).1 zeroM with
    | mk st2 res =>
      rw [hloop] at hq
      cases res with
      | error e => simp [entryOf] at hq
      | ok S =>
        have hzz : ∀ s n s2 T,
            Salience._SPT oracle s G n key = (s2, Except.ok T) →
            T i j = 0 :=
          fun s n s2 T h => SPT_w_entry_nonedge oracle key s G n s2 T hor h
            i j hij
        have hz := salienceLoop_entry_zero
          (fun s n => Salience._SPT oracle s G n key) i j hzz _ _ _ _ _ hloop
        have hq2 : some (S i j / (G.nodes.length : ℚ)) = some q := hq
        injection hq2 with hq2
        rw [← hq2, hz]
        show (0 : ℚ) / (G.nodes.length : ℚ) = 0
        rw [zero_div]

/-- C6 witness: (0,2) is not an edge of the path graph 0-1-2 and its
salience entry is 0. -/
theorem C6_salience_zero_on_nonedges_witness :
    ¬ IsEdgeIdx path3 0 2 ∧
    (∀ q, entryOf (SalienceUnw.salience st3 path3).2 0 2 = some q →
      q = 0) := by
  have hne : ¬ IsEdgeIdx path3 0 2 := by
    rintro ⟨e, he, hc⟩
    simp [path3] at he
    rcases he with he | he <;> rw [he] at hc <;>
      simp [nodeIdx, path3] at hc
  exact ⟨hne, (C6_salience_zero_on_nonedges st3 st3 path3 "weight"
    nullOracle nullOracle_valid 0 2 hne).1⟩

/-- C7: every entry of a returned salience matrix lies in `[0,1]`: each of
the `N` reference nodes contributes 0 or 1 to an accumulator entry, and
the accumulator is divided by `N`. -/
theorem C7_salience_entries_in_unit_range (st stw : Store) (G : PyGraph)
    (key : String) (oracle : PathOracle) (i j : Nat) :
    (∀ q, entryOf (SalienceUnw.salience st G).2 i j = some q →
      0 ≤ q ∧ q ≤ 1) ∧
    (∀ q, entryOf (Salience.salience oracle stw G key).2 i j = some q →
      0 ≤ q ∧ q ≤ 1) := by
  constructor
  · intro q hq
    rw [salience_unw_eq] at hq
    cases hloop : salienceLoop (fun s n => SalienceUnw._SPT s G n)
        (convert_node_labels_to_integers st G).2.nodes
        (convert_node_labels_to_integers st G).1 zeroM with
    | mk st2 res =>
      rw [hloop] at hq
      cases res with
      | error e => simp [entryOf] at hq
      | ok S =>
        have hb : ∀ s n s2 T, SalienceUnw._SPT s G n = (s2, Except.ok T) →
            0 ≤ T i j ∧ T i j ≤ 1 := by
          intro s n s2 T h
          rcases SPT_unw_entry01 s G n s2 T h i j with h01 | h01 <;>
            rw [h01] <;> norm_num
        have hbd := salienceLoop_bound (fun s n => SalienceUnw._SPT s G n)
          i j hb _ _ _ _ _ hloop
        have hq2 : some (S i j / (G.nodes.length : ℚ)) = some q := hq
        injection hq2 with hq2
        rw [← hq2]
        have h0 : (0 : ℚ) ≤ S i j := hbd.1
        have h1 : S i j ≤ (G.nodes.length : ℚ) := by
          have h2 := hbd.2
          have h4 : (convert_node_labels_to_integers st G).2.nodes.length =
              G.nodes.length := by
            simp [convert_node_labels_to_integers]
          rw [h4] at h2
          calc S i j ≤ zeroM i j + (G.nodes.length : ℚ) := h2
            _ = (G.nodes.length : ℚ) := by
              rw [show zeroM i j = (0 : ℚ) from rfl, zero_add]
        exact div_nat_mem_unit h0 h1
  · intro q hq
    rw [salience_w_eq] at hq
    cases hloop : salienceLoop (fun s n => Salience._SPT oracle s G n key)
        (convert_node_labels_to_integers stw G).2.nodes
        (convert_node_labels_to_integers stw G).1 zeroM with
    | mk st2 res =>
      rw [hloop] at hq
      cases res with
      | error e => simp [entryOf] at hq
      | ok S =>
        have hb : ∀ s n s2 T,
            Salience._SPT oracle s G n key = (s2, Except.ok T) →
            0 ≤ T i j ∧ T i j ≤ 1 := by
          intro s n s2 T h
          rcases SPT_w_entry01 oracle key s G n s2 T h i j with h01 | h01 <;>
            rw [h01] <;> norm_num
        have hbd := salienceLoop_bound
          (fun s n => Salience._SPT oracle s G n key) i j hb _ _ _ _ _ hloop
        have hq2 : some (S i j / (G.nodes.length : ℚ)) = some q := hq
        injection hq2 with hq2
        rw [← hq2]
        have h0 : (0 : ℚ) ≤ S i j := hbd.1
        have h1 : S i j ≤ (G.nodes.length : ℚ) := by
          have h2 := hbd.2
          have h4 : (convert_node_labels_to_integers stw G).2.nodes.length =
              G.nodes.length := by
            simp [convert_node_labels_to_integers]
          rw [h4] at h2
          calc S i j ≤ zeroM i j + (G.nodes.length : ℚ) := h2
            _ = (G.nodes.length : ℚ) := by
              rw [show zeroM i j = (0 : ℚ) from rfl, zero_add]
        exact div_nat_mem_unit h0 h1

/-- C7 witness: the (0,1) entry of the path-graph salience matrix, 1/3,
lies in `[0,1]`. -/
theorem C7_salience_entries_in_unit_range_witness :
    0 ≤ (1 : ℚ) / 3 ∧ (1 : ℚ) / 3 ≤ 1 :=
  (C7_salience_entries_in_unit_range st3 st3 path3 "weight" nullOracle
    0 1).1 (1 / 3)
    (by norm_num [SalienceUnw.salience, SalienceUnw._SPT, salienceLoop,
      convert_node_labels_to_integers, relabelEdges, copyDicts, nodeIdx,
      single_source_shortest_path, bfsLoop, bfsLevel, addNeighbors, lookupP,
      neighbors, nbrAux, fillT, markPath, setEntry, zeroM, addMat, entryOf,
      path3, st3, List.mem_range])

/-- C8 counterexample: a directed graph with zero nodes is NOT rejected —
the shape check lives on `_SPT`, the aggregator loop never runs, and both
entry points return a 0x0 matrix, contradicting the claim that the call
fails before any computation. -/
theorem C8_counterexample_empty_directed_accepted :
    isOkRes (SalienceUnw.salience [] dirEmpty).2 = true ∧
    isOkRes (Salience.salience nullOracle [] dirEmpty "weight").2 = true :=
  ⟨rfl, rfl⟩

/-- C8 amended: on a directed or multigraph input with at least one node,
both entry points fail with `UnsupportedGraphShape`, raised by the first
`_SPT` call (after the aggregator has already allocated its accumulator
and relabelled copy); a directed or multigraph input with zero nodes is
not rejected at all and returns a 0x0 matrix. -/
theorem C8_unsupported_shape_error_when_nonempty (st : Store) (G : PyGraph)
    (oracle : PathOracle) (key : String)
    (hshape : G.directed = true ∨ G.multigraph = true)
    (hne : G.nodes ≠ []) :
    (SalienceUnw.salience st G).2 =
      Except.error PyErr.unsupportedGraphShape ∧
    (Salience.salience oracle st G key).2 =
      Except.error PyErr.unsupportedGraphShape := by
  have hflag : (G.directed || G.multigraph) = true := by
    rcases hshape with h | h
    · rw [h]
      rfl
    · rw [h]
      simp
  cases hnodes : (convert_node_labels_to_integers st G).2.nodes with
  | nil =>
    exfalso
    have hlen : G.nodes.length = 0 := by
      have h0 := congrArg List.length hnodes
      simpa [convert_node_labels_to_integers] using h0
    exact hne (List.length_eq_zero.1 hlen)
  | cons n0 rest =>
    constructor
    · have hpair := SPT_unw_unsupported
        (convert_node_labels_to_integers st G).1 G n0 hflag
      have hl2 : salienceLoop (fun s n => SalienceUnw._SPT s G n)
          (convert_node_labels_to_integers st G).2.nodes
          (convert_node_labels_to_integers st G).1 zeroM =
          ((convert_node_labels_to_integers st G).1,
           Except.error PyErr.unsupportedGraphShape) := by
        rw [hnodes]
        exact salienceLoop_cons_err _ n0 rest _ zeroM _ _ hpair
      rw [salience_unw_of_loop_err st G _ _ hl2]
    · have hpair := SPT_w_unsupported oracle key
        (convert_node_labels_to_integers st G).1 G n0 hflag
      have hl2 : salienceLoop (fun s n => Salience._SPT oracle s G n key)
          (convert_node_labels_to_integers st G).2.nodes
          (convert_node_labels_to_integers st G).1 zeroM =
          ((convert_node_labels_to_integers st G).1,
           Except.error PyErr.unsupportedGraphShape) := by
        rw [hnodes]
        exact salienceLoop_cons_err _ n0 rest _ zeroM _ _ hpair
      rw [salience_w_of_loop_err oracle key st G _ _ hl2]

/-- C8 amended witness: the one-node directed graph is rejected by both
entry points. -/
theorem C8_unsupported_shape_error_when_nonempty_witness :
    (SalienceUnw.salience [] dirOne).2 =
      Except.error PyErr.unsupportedGraphShape ∧
    (Salience.salience nullOracle [] dirOne "weight").2 =
      Except.error PyErr.unsupportedGraphShape :=
  C8_unsupported_shape_error_when_nonempty [] dirOne nullOracle "weight"
    (Or.inl rfl) (by simp [dirOne])

/-- C9: a salience call never mutates the caller's graph: every attribute
cell of the heap that existed before the call (in particular each edge
attribute dictionary of the argument graph) holds the same dictionary
afterwards — the proximity attribute is written only to the fresh cells of
the internal relabelled copies. -/
theorem C9_caller_store_unchanged (st : Store) (G : PyGraph) (key : String)
    (oracle : PathOracle) (c : Nat) (hc : c < st.length) :
    (SalienceUnw.salience st G).1[c]? = st[c]? ∧
    (Salience.salience oracle st G key).1[c]? = st[c]? := by
  have hbase : ExtendsAt st c st := ⟨rfl, le_refl _⟩
  constructor
  · rw [salience_unw_eq]
    cases hloop : salienceLoop (fun s n => SalienceUnw._SPT s G n)
        (convert_node_labels_to_integers st G).2.nodes
        (convert_node_labels_to_integers st G).1 zeroM with
    | mk st2 res =>
      have hP : ExtendsAt st c st2 := by
        have h := salienceLoop_store (fun s n => SalienceUnw._SPT s G n)
          (ExtendsAt st c) (fun s n hs => SPT_unw_frame st c hc G s n hs)
          (convert_node_labels_to_integers st G).2.nodes
          (convert_node_labels_to_integers st G).1 zeroM
          (convert_extends st c hc st G hbase)
        rwa [hloop] at h
      cases res with
      | error e => exact hP.1
      | ok S => exact hP.1
  · rw [salience_w_eq]
    cases hloop : salienceLoop (fun s n => Salience._SPT oracle s G n key)
        (convert_node_labels_to_integers st G).2.nodes
        (convert_node_labels_to_integers st G).1 zeroM with
    | mk st2 res =>
      have hP : ExtendsAt st c st2 := by
        have h := salienceLoop_store
          (fun s n => Salience._SPT oracle s G n key) (ExtendsAt st c)
          (fun s n hs => SPT_w_frame st c hc oracle key G s n hs)
          (convert_node_labels_to_integers st G).2.nodes
          (convert_node_labels_to_integers st G).1 zeroM
          (convert_extends st c hc st G hbase)
        rwa [hloop] at h
      cases res with
      | error e => exact hP.1
      | ok S => exact hP.1

/-- C9 witness: the path graph's two weight dictionaries are untouched by
both variants. -/
theorem C9_caller_store_unchanged_witness :
    (SalienceUnw.salience st3 path3).1[0]? = st3[0]? ∧
    (Salience.salience nullOracle st3 path3 "weight").1[0]? = st3[0]? :=
  C9_caller_store_unchanged st3 path3 "weight" nullOracle 0 (by decide)

/-- C10: both the aggregator and each `_SPT` call relabel the same graph
with the same deterministic mapping (position in the `G.nodes()` order),
independent of the heap, so every reference index passed by the aggregator
is a node of `_SPT`'s relabelled graph: the unweighted variant always
succeeds on an accepted graph, and the weighted variant can never fail
with `NodeNotFound`. -/
theorem C10_reference_indices_always_valid (st : Store) (G : PyGraph)
    (hd : G.directed = false) (hm : G.multigraph = false) :
    (∃ S, (SalienceUnw.salience st G).2 = Except.ok S) ∧
    (∀ (oracle : PathOracle) (key : String) (stw : Store),
      (Salience.salience oracle stw G key).2 ≠
        Except.error PyErr.nodeNotFound) ∧
    (∀ st1 st2 : Store,
      (convert_node_labels_to_integers st1 G).2.nodes =
        (convert_node_labels_to_integers st2 G).2.nodes ∧
      (convert_node_labels_to_integers st1 G).2.edges.map Prod.fst =
        (convert_node_labels_to_integers st2 G).2.edges.map Prod.fst) := by
  refine ⟨?_, ?_, ?_⟩
  · have hok : ∀ st1 n, n ∈ (convert_node_labels_to_integers st G).2.nodes →
        ∃ st2 T, SalienceUnw._SPT st1 G n = (st2, Except.ok T) := by
      intro st1 n hn
      obtain ⟨T, hT⟩ := SPT_unw_ok st1 G n hd hm (List.mem_range.1 hn)
      exact ⟨_, T, hT⟩
    obtain ⟨st2, S2, hloop⟩ := salienceLoop_ok
      (fun s n => SalienceUnw._SPT s G n)
      (convert_node_labels_to_integers st G).2.nodes
      (convert_node_labels_to_integers st G).1 zeroM hok
    refine ⟨fun i j => S2 i j / (G.nodes.length : ℚ), ?_⟩
    rw [salience_unw_of_loop_ok st G st2 S2 hloop]
  · intro oracle key stw
    rw [salience_w_eq]
    cases hloop : salienceLoop (fun s n => Salience._SPT oracle s G n key)
        (convert_node_labels_to_integers stw G).2.nodes
        (convert_node_labels_to_integers stw G).1 zeroM with
    | mk st2 res =>
      have hne := salienceLoop_ne_err
        (fun s n => Salience._SPT oracle s G n key) PyErr.nodeNotFound
        (convert_node_labels_to_integers stw G).2.nodes
        (convert_node_labels_to_integers stw G).1 zeroM
        (fun s n hn => SPT_w_ne_nodeNotFound oracle key s G n
          (List.mem_range.1 hn))
      rw [hloop] at hne
      cases res with
      | error e => exact fun hc => hne hc
      | ok S => simp
  · intro st1 st2
    exact ⟨rfl, relabelEdges_map_fst G.edges G.nodes st1.length st2.length⟩

/-- C10 witness: on the path graph the unweighted call succeeds and the
weighted call cannot report a missing source node. -/
theorem C10_reference_indices_always_valid_witness :
    (∃ S, (SalienceUnw.salience st3 path3).2 = Except.ok S) ∧
    (Salience.salience nullOracle st3 path3 "weight").2 ≠
      Except.error PyErr.nodeNotFound := by
  have h := C10_reference_indices_always_valid st3 path3 rfl rfl
  exact ⟨h.1, h.2.1 nullOracle "weight" st3⟩
